import Mathlib

/-!
Verification development for the better-call-robots repository.

The file shallowly embeds the two core components of the repository:

* the conversational session manager (`src/services/api/llm.py` and the
  WebSocket handlers in `src/main.py` / `src/services/api/main.py`), and
* the content pipeline (`src/services/api/content_processor.py`):
  chunker, boundary adjustment, URL processing, and the keyword retriever.

External collaborators (the Gemini completion API, the tiktoken encoding,
BeautifulSoup extraction, the HTTP client, clocks) are passed in as explicit
function or value parameters, so every definition is a total executable
function of the code's own logic plus those inputs.
-/

namespace SessionM

/-- Session state of `GeminiLLM` in `src/services/api/llm.py`: the
`self.sessions` dictionary, mapping a call sid to the conversation history
(a Python list of strings).  Absent keys are `none`. -/
def Sessions : Type := String → Option (List String)

/-- Embeds `GeminiLLM.create_session`: `self.sessions[call_sid] = []`. -/
def create_session (st : Sessions) (c : String) : Sessions :=
  fun k => if k = c then some [] else st k

/-- Embeds `GeminiLLM.end_session`: `if call_sid in self.sessions: del
self.sessions[call_sid]`. -/
def end_session (st : Sessions) (c : String) : Sessions :=
  fun k => if k = c then none else st k

/-- Embeds the membership test `call_sid in self.sessions` (exposed as
`has_session` by the `src/llm.py` variant of the class). -/
def has_session (st : Sessions) (c : String) : Bool :=
  (st c).isSome

/-- Python slice `l[-n:]` for a positive literal `n`: the last
`min n (length l)` elements. -/
def lastSlice (n : Nat) (l : List α) : List α :=
  l.drop (l.length - n)

/-- The fixed apologetic fallback returned by `send_message` when the
backend call raises. -/
def fallback_reply : String :=
  "I'm having trouble right now. Can you please repeat that?"

/-- The reply substituted when the backend response's `result` field is
falsy (`None` or the empty string). -/
def misunderstood_reply : String :=
  "I apologize, I didn't understand that."

/-- The history of call `c` immediately after `send_message` has run its
first two statements: implicit `create_session` when absent, then
`self.sessions[call_sid].append(f"User: ...")`. -/
def message_history (st : Sessions) (c msg : String) : List String :=
  let st1 := if (st c).isSome then st else create_session st c
  (st1 c).getD [] ++ ["User: " ++ msg]

/-- The prompt string built in `send_message`:
`f"SYSTEM_PROMPT\n\nConversation:\ncontext\n\nAI:"` where `context`
joins the last ten history entries with newlines.  `sysPrompt` is the
content of `prompts/system_prompt.txt` (a data file, passed in). -/
def build_prompt (sysPrompt : String) (hist : List String) : String :=
  sysPrompt ++ "\n\nConversation:\n" ++
    String.intercalate "\n" (lastSlice 10 hist) ++ "\n\nAI:"

/-- Embeds `GeminiLLM.send_message`.  `gen` models the external call
`genai.generate_text(...)` as a function of the prompt: `.error e` when the
call raises, `.ok r` when it returns a response whose `result` attribute is
`r` (`none` models Python `None`).  Returns the updated session dictionary
together with the returned string. -/
def send_message (sysPrompt : String) (gen : String → Except String (Option String))
    (st : Sessions) (c msg : String) : Sessions × String :=
  let st1 := if (st c).isSome then st else create_session st c
  let hist := message_history st c msg
  let st2 : Sessions := fun k => if k = c then some hist else st1 k
  match gen (build_prompt sysPrompt hist) with
  | .error _ => (st2, fallback_reply)
  | .ok r =>
    let ai := match r with
      | some t => if t = "" then misunderstood_reply else t
      | none => misunderstood_reply
    (fun k => if k = c then some (hist ++ ["AI: " ++ ai]) else st2 k, ai)

/-- C1: if the backend call inside `send_message c m` raises any exception,
`send_message` does not raise (it is a total function of the modelled
outcome); it returns the fixed apologetic fallback string and the session
for `c` still exists afterwards. -/
theorem C1_backend_failure_fallback_and_session_kept
    (sysPrompt : String) (gen : String → Except String (Option String))
    (st : Sessions) (c msg e : String)
    (h : gen (build_prompt sysPrompt (message_history st c msg)) = .error e) :
    (send_message sysPrompt gen st c msg).2 = fallback_reply ∧
    ((send_message sysPrompt gen st c msg).1 c).isSome = true := by
  simp only [send_message, h]
  constructor
  · trivial
  · simp

/-- Witness for C1 at a concrete input: a backend that always raises. -/
theorem C1_backend_failure_fallback_and_session_kept_witness :
    ((fun _ : String => (.error "boom" : Except String (Option String)))
        (build_prompt "SYS" (message_history (fun _ => none) "CA123" "hello")) =
      .error "boom") ∧
    ((send_message "SYS" (fun _ => .error "boom") (fun _ => none) "CA123" "hello").2 =
        fallback_reply ∧
      ((send_message "SYS" (fun _ => .error "boom") (fun _ => none) "CA123" "hello").1
            "CA123").isSome = true) :=
  ⟨rfl, C1_backend_failure_fallback_and_session_kept "SYS" (fun _ => .error "boom")
    (fun _ => none) "CA123" "hello" "boom" rfl⟩

/-- C2: on every `send_message` call the prompt handed to the backend starts
with the fixed system instruction, and its conversation context is built
from at most the last 10 entries of the session history (the history right
after the user turn was appended), kept in oldest-first order: the selected
entries form a suffix of the history of length at most 10. -/
theorem C2_context_last_ten_oldest_first_with_system_instruction
    (sysPrompt : String) (st : Sessions) (c msg : String) :
    (∃ rest, build_prompt sysPrompt (message_history st c msg) = sysPrompt ++ rest) ∧
    (lastSlice 10 (message_history st c msg)).length ≤ 10 ∧
    lastSlice 10 (message_history st c msg) <:+ message_history st c msg ∧
    build_prompt sysPrompt (message_history st c msg) =
      sysPrompt ++ "\n\nConversation:\n" ++
        String.intercalate "\n" (lastSlice 10 (message_history st c msg)) ++ "\n\nAI:" := by
  refine ⟨⟨"\n\nConversation:\n" ++
      String.intercalate "\n" (lastSlice 10 (message_history st c msg)) ++ "\n\nAI:", ?_⟩,
    ?_, List.drop_suffix _ _, rfl⟩
  · simp [build_prompt, String.append_assoc]
  · simp only [lastSlice, List.length_drop]
    omega

/-- C9: creating a session and then ending it leaves no session for that
call id, and ending an absent session is a no-op on the session map. -/
theorem C9_create_then_end_removes_and_end_absent_noop :
    (∀ (st : Sessions) (c : String),
      has_session (end_session (create_session st c) c) c = false) ∧
    (∀ (st : Sessions) (c : String), st c = none → end_session st c = st) := by
  constructor
  · intro st c
    simp [has_session, end_session]
  · intro st c h
    funext k
    by_cases hk : k = c
    · subst hk; simp [end_session, h]
    · simp [end_session, hk]

/-- Witness for C9 at a concrete input: the empty session map. -/
theorem C9_create_then_end_removes_and_end_absent_noop_witness :
    has_session (end_session (create_session (fun _ => none) "CA1") "CA1") "CA1" = false ∧
    end_session (fun _ => none) "CA1" = (fun _ => none : Sessions) :=
  ⟨C9_create_then_end_removes_and_end_absent_noop.1 (fun _ => none) "CA1",
    C9_create_then_end_removes_and_end_absent_noop.2 (fun _ => none) "CA1" rfl⟩

/-- C10: when the backend call raises, the session history for `c` ends up
being exactly the prior history with the single user turn appended (no
assistant turn), and every other call id's session is unchanged. -/
theorem C10_error_path_keeps_user_turn_frames_others
    (sysPrompt : String) (gen : String → Except String (Option String))
    (st : Sessions) (c msg e : String)
    (h : gen (build_prompt sysPrompt (message_history st c msg)) = .error e) :
    (send_message sysPrompt gen st c msg).1 c =
      some ((st c).getD [] ++ ["User: " ++ msg]) ∧
    ∀ c', c' ≠ c → (send_message sysPrompt gen st c msg).1 c' = st c' := by
  simp only [send_message, h]
  constructor
  · cases hc : st c with
    | none => simp [message_history, create_session, hc]
    | some hist => simp [message_history, hc]
  · intro c' hc'
    cases hc : st c with
    | none => simp [create_session, hc, hc']
    | some hist => simp [hc, hc']

/-- Witness for C10 at a concrete input: one existing session, an always
failing backend, and a second untouched session. -/
theorem C10_error_path_keeps_user_turn_frames_others_witness :
    ((send_message "SYS" (fun _ => .error "quota")
        (fun k => if k = "CA9" then some ["User: hi", "AI: hello"] else none)
        "CA9" "what?").1 "CA9" =
      some (["User: hi", "AI: hello"] ++ ["User: what?"])) ∧
    ((send_message "SYS" (fun _ => .error "quota")
        (fun k => if k = "CA9" then some ["User: hi", "AI: hello"] else none)
        "CA9" "what?").1 "other" = none) := by
  have h := C10_error_path_keeps_user_turn_frames_others "SYS" (fun _ => .error "quota")
    (fun k => if k = "CA9" then some ["User: hi", "AI: hello"] else none)
    "CA9" "what?" "quota" rfl
  exact ⟨h.1, (h.2 "other" (by decide)).trans (by simp)⟩

end SessionM

namespace Handler

/-- Inbound transport events consumed by the `websocket_endpoint` loop
(`message["type"]` dispatch in `src/main.py` and
`src/services/api/main.py`). -/
inductive Event : Type where
  | setup (callSid : String)
  | prompt (voicePrompt : String)
  | interrupt
  | other (t : String)

/-- Per-connection handler state: the local `call_sid` variable (starts as
Python `None`) and the process-wide `llm.sessions` dictionary. -/
structure HState : Type where
  callSid : Option String
  sessions : SessionM.Sessions

/-- Embeds one iteration of the `websocket_endpoint` loop of
`src/services/api/main.py`.  Returns the successor state and the list of
texts sent over the socket during that iteration (the `token` field of the
outbound message).  The "prompt" branch guard is Python's
`if not call_sid: continue`, false for `None` and for the empty string. -/
def handle_event (sysPrompt : String) (gen : String → Except String (Option String))
    (st : HState) (e : Event) : HState × List String :=
  match e with
  | .setup c => ({ callSid := some c, sessions := SessionM.create_session st.sessions c }, [])
  | .prompt m =>
    match st.callSid with
    | none => (st, [])
    | some c =>
      if c = "" then (st, [])
      else
        let r := SessionM.send_message sysPrompt gen st.sessions c m
        ({ st with sessions := r.1 }, [r.2])
  | .interrupt => (st, [])
  | .other _ => (st, [])

/-- Folds `handle_event` over a connection's event stream, starting from a
given state (a fresh connection starts at `callSid = none` with the current
global session map). -/
def run_handler (sysPrompt : String) (gen : String → Except String (Option String))
    (st : HState) : List Event → HState
  | [] => st
  | e :: es => run_handler sysPrompt gen (handle_event sysPrompt gen st e).1 es

/-- Embeds one iteration of the `websocket_endpoint` loop of `src/main.py`,
whose prompt branch additionally guards with
`if not call_sid or not llm.has_session(call_sid): continue` and then calls
`llm.get_response`.  `gen2` models the remote chat turn: given the chat's
accumulated history and the new user prompt it yields the reply, and the
remote session history grows by the user turn and the reply. -/
def handle_event_src (gen2 : List String → String → String)
    (st : HState) (e : Event) : HState × List String :=
  match e with
  | .setup c => ({ callSid := some c, sessions := SessionM.create_session st.sessions c }, [])
  | .prompt m =>
    match st.callSid with
    | none => (st, [])
    | some c =>
      if c = "" then (st, [])
      else
        match st.sessions c with
        | none => (st, [])
        | some chat =>
          let reply := gen2 chat m
          ({ st with
              sessions := fun k => if k = c then some (chat ++ [m, reply]) else st.sessions k },
            [reply])
  | .interrupt => (st, [])
  | .other _ => (st, [])

/-- No session exists for the connection's current call id (vacuously true
while `call_sid` is still `None`). -/
def orphaned (st : HState) : Prop :=
  ∀ c, st.callSid = some c → st.sessions c = none

/-- A set call id is always backed by an existing session. -/
def sessionBacked (st : HState) : Prop :=
  ∀ c, st.callSid = some c → (st.sessions c).isSome = true

theorem send_message_keeps_session (sysPrompt : String)
    (gen : String → Except String (Option String)) (st : SessionM.Sessions)
    (c msg : String) :
    ((SessionM.send_message sysPrompt gen st c msg).1 c).isSome = true := by
  simp only [SessionM.send_message]
  cases gen (SessionM.build_prompt sysPrompt (SessionM.message_history st c msg)) <;> simp

theorem handle_event_backed (sysPrompt : String)
    (gen : String → Except String (Option String)) (st : HState) (e : Event)
    (h : sessionBacked st) : sessionBacked (handle_event sysPrompt gen st e).1 := by
  obtain ⟨cs, sess⟩ := st
  cases e with
  | setup c =>
    intro c' hc'
    simp only [handle_event] at hc'
    cases hc'
    simp [handle_event, SessionM.create_session]
  | prompt m =>
    cases cs with
    | none => simpa [handle_event] using h
    | some c =>
      by_cases hce : c = ""
      · simpa [handle_event, hce] using h
      · intro c' hc'
        simp only [handle_event, if_neg hce] at hc' ⊢
        cases hc'
        exact send_message_keeps_session sysPrompt gen sess c m
  | interrupt => simpa [handle_event] using h
  | other t => simpa [handle_event] using h

theorem run_handler_backed (sysPrompt : String)
    (gen : String → Except String (Option String)) (events : List Event) :
    ∀ st : HState, sessionBacked st →
      sessionBacked (run_handler sysPrompt gen st events) := by
  induction events with
  | nil => intro st h; exact h
  | cons e es ih =>
    intro st h
    exact ih _ (handle_event_backed sysPrompt gen st e h)

theorem run_handler_append (sysPrompt : String)
    (gen : String → Except String (Option String)) (l₁ l₂ : List Event) :
    ∀ st : HState, run_handler sysPrompt gen st (l₁ ++ l₂) =
      run_handler sysPrompt gen (run_handler sysPrompt gen st l₁) l₂ := by
  induction l₁ with
  | nil => intro st; rfl
  | cons e es ih => intro st; exact ih _

/-- C8: in every event stream handled by a WebSocket connection, a "prompt"
event arriving while no session exists for the connection's call id — in
particular any prompt before a "setup" event — is dropped: the handler
emits no reply, leaves the whole state (call id and session map) untouched,
and simply goes on with the rest of the stream.  The first two conjuncts
cover the `src/services/api/main.py` handler on any reachable connection
state; the last covers the `src/main.py` handler on any state at all. -/
theorem C8_orphan_prompt_dropped :
    (∀ (sysPrompt : String) (gen : String → Except String (Option String))
        (events : List Event) (s0 : SessionM.Sessions) (m : String),
      orphaned (run_handler sysPrompt gen ⟨none, s0⟩ events) →
        handle_event sysPrompt gen (run_handler sysPrompt gen ⟨none, s0⟩ events)
          (.prompt m) = (run_handler sysPrompt gen ⟨none, s0⟩ events, [])) ∧
    (∀ (sysPrompt : String) (gen : String → Except String (Option String))
        (events rest : List Event) (s0 : SessionM.Sessions) (m : String),
      orphaned (run_handler sysPrompt gen ⟨none, s0⟩ events) →
        run_handler sysPrompt gen ⟨none, s0⟩ (events ++ (.prompt m :: rest)) =
          run_handler sysPrompt gen (run_handler sysPrompt gen ⟨none, s0⟩ events) rest) ∧
    (∀ (gen2 : List String → String → String) (st : HState) (m : String),
      orphaned st → handle_event_src gen2 st (.prompt m) = (st, [])) := by
  have backed : ∀ (sysPrompt : String) (gen : String → Except String (Option String))
      (events : List Event) (s0 : SessionM.Sessions),
      sessionBacked (run_handler sysPrompt gen ⟨none, s0⟩ events) := by
    intro sysPrompt gen events s0
    exact run_handler_backed sysPrompt gen events _ (by intro c hc; cases hc)
  have drop : ∀ (sysPrompt : String) (gen : String → Except String (Option String))
      (events : List Event) (s0 : SessionM.Sessions) (m : String),
      orphaned (run_handler sysPrompt gen ⟨none, s0⟩ events) →
        handle_event sysPrompt gen (run_handler sysPrompt gen ⟨none, s0⟩ events)
          (.prompt m) = (run_handler sysPrompt gen ⟨none, s0⟩ events, []) := by
    intro sysPrompt gen events s0 m horph
    cases hcs : (run_handler sysPrompt gen ⟨none, s0⟩ events).callSid with
    | none => simp [handle_event, hcs]
    | some c =>
      have h1 := horph c hcs
      have h2 := backed sysPrompt gen events s0 c hcs
      rw [h1] at h2
      simp at h2
  exact ⟨drop, fun sysPrompt gen events rest s0 m horph => by
      rw [run_handler_append]
      have := drop sysPrompt gen events s0 m horph
      show run_handler sysPrompt gen
        (handle_event sysPrompt gen (run_handler sysPrompt gen ⟨none, s0⟩ events)
          (.prompt m)).1 rest = _
      rw [this],
    fun gen2 st m horph => by
      obtain ⟨cs, sess⟩ := st
      cases cs with
      | none => simp [handle_event_src]
      | some c =>
        have h1 := horph c rfl
        by_cases hce : c = ""
        · simp [handle_event_src, hce]
        · simp only at h1
          simp [handle_event_src, hce, h1]⟩

/-- Witness for C8 at a concrete input: a fresh connection (no setup yet)
receiving a prompt, under both handlers. -/
theorem C8_orphan_prompt_dropped_witness :
    handle_event "S" (fun _ => .ok none)
        (run_handler "S" (fun _ => .ok none) ⟨none, fun _ => none⟩ []) (.prompt "hi") =
      (run_handler "S" (fun _ => .ok none) ⟨none, fun _ => none⟩ [], []) ∧
    handle_event_src (fun _ _ => "reply") ⟨none, fun _ => none⟩ (.prompt "hi") =
      (⟨none, fun _ => none⟩, []) :=
  ⟨C8_orphan_prompt_dropped.1 "S" (fun _ => .ok none) [] (fun _ => none) "hi"
      (fun _ hc => nomatch hc),
    C8_orphan_prompt_dropped.2.2 (fun _ _ => "reply") ⟨none, fun _ => none⟩ "hi"
      (fun _ hc => nomatch hc)⟩

end Handler

namespace Content

/-- Python whitespace characters (ASCII), as recognised by `str.strip()` and
`str.split()`. -/
def isPySpace (c : Char) : Bool :=
  c = ' ' || c = '\t' || c = '\n' || c = '\r' || c = '\x0b' || c = '\x0c'

/-- Python `str.strip()`: remove whitespace from both ends. -/
def pyStrip (l : List Char) : List Char :=
  ((l.dropWhile isPySpace).reverse.dropWhile isPySpace).reverse

/-- Python `str.split()` with no separator: the maximal nonempty runs of
non-whitespace characters. -/
def pySplit (l : List Char) : List (List Char) :=
  (l.splitOnP isPySpace).filter (fun w => !w.isEmpty)

/-- Scanner for Python `str.count(sub)` with a nonempty `sub`: greedy
left-to-right count of non-overlapping occurrences.  The `fuel` argument
only bounds the recursion depth; every step consumes at least one character
of the remaining text, so starting it at the text's length never cuts the
scan short. -/
def pyCountLoop (sub : List Char) : Nat → List Char → Nat
  | 0, _ => 0
  | _, [] => 0
  | fuel + 1, c :: t =>
    if List.isPrefixOf sub (c :: t) then
      1 + pyCountLoop sub fuel ((c :: t).drop sub.length)
    else pyCountLoop sub fuel t

/-- Python `str.count(sub)`: for the empty pattern Python returns
`len + 1`. -/
def pyCount (l sub : List Char) : Nat :=
  if sub = [] then l.length + 1 else pyCountLoop sub l.length l

/-- Indices at which `sub` occurs in `l`. -/
def occIdx (l sub : List Char) : List Nat :=
  (List.range (l.length + 1)).filter (fun i => List.isPrefixOf sub (l.drop i))

/-- Python `str.rfind(sub)`: the highest index at which `sub` occurs, `-1`
when it does not occur. -/
def pyRfind (l sub : List Char) : Int :=
  match (occIdx l sub).max? with
  | some i => Int.ofNat i
  | none => -1

/-- Python slice `l[:k]` for an `int` index `k`: a negative `k` counts from
the end of the list. -/
def pySliceTo (l : List Char) (k : Int) : List Char :=
  if 0 ≤ k then l.take k.toNat
  else l.take (l.length - (-k).toNat)

/-- The `sentence_endings` list of `_adjust_chunk_boundary`. -/
def sentence_endings : List (List Char) := [['.'], ['!'], ['?'], ['\n', '\n']]

/-- Embeds `ContentProcessor._adjust_chunk_boundary` exactly as written:
texts shorter than 50 characters are returned unchanged; otherwise the last
100 characters are searched with `rfind` for each ending, positions
(measured from the start of that window) greater than 20 feed a running
maximum `best_split`, and when positive the text is cut with the Python
slice `text[:len(text) - 100 + best_split + 1]` and stripped, else just
stripped. -/
def adjust_chunk_boundary (text : List Char) : List Char :=
  if text.length < 50 then text
  else
    let last_part := text.drop (text.length - 100)
    let best_split := sentence_endings.foldl (fun best e =>
      let pos := pyRfind last_part e
      if pos > 20 then max best pos else best) (-1 : Int)
    if best_split > 0 then
      pyStrip (pySliceTo text (Int.ofNat text.length - 100 + best_split + 1))
    else pyStrip text

/-- Values stored in the Python metadata dictionaries. -/
inductive PyVal : Type where
  | s (v : List Char)
  | i (v : Int)
  | b (v : Bool)
deriving DecidableEq

/-- A Python `dict` keyed by strings, as a lookup function. -/
def Metadata : Type := String → Option PyVal

/-- Dictionary update (`d[k] = v`, or a later key in a `dict` literal /
`{**d, k: v}` merge overriding an earlier one). -/
def mset (m : Metadata) (k : String) (v : PyVal) : Metadata :=
  fun k' => if k' = k then some v else m k'

/-- The empty dictionary. -/
def mempty_dict : Metadata := fun _ => none

/-- The `ProcessedChunk` dataclass. -/
structure ProcessedChunk : Type where
  content : List Char
  metadata : Metadata
  token_count : Nat

/-- The `ProcessedDocument` dataclass. -/
structure ProcessedDocument : Type where
  id : List Char
  chunks : List ProcessedChunk
  metadata : Metadata
  total_tokens : Nat

/-- The `max_chunk_tokens` field set in `ContentProcessor.__init__`. -/
def max_chunk_tokens : Nat := 500

/-- The `chunk_overlap` field set in `ContentProcessor.__init__`. -/
def chunk_overlap : Nat := 50

/-- Python `range(start, stop, step)` for a positive `step`. -/
def pyRange (start stop step : Nat) : List Nat :=
  (List.range ((stop - start + step - 1) / step)).map (fun j => start + step * j)

/-- One iteration of the chunking loop body: the window of (up to)
`max_chunk_tokens` tokens starting at token index `i`, decoded, boundary
adjusted, with the `chunk_index` counter at `idx` and the provisional
`total_chunks = -1`. -/
def window_chunk (decode : List Nat → List Char) (docMeta : Metadata)
    (tokens : List Nat) (idx i : Nat) : ProcessedChunk :=
  let chunk_tokens := (tokens.drop i).take max_chunk_tokens
  { content := adjust_chunk_boundary (decode chunk_tokens),
    metadata := mset (mset docMeta "chunk_index" (.i idx)) "total_chunks" (.i (-1)),
    token_count := chunk_tokens.length }

/-- The chunking `for` loop: one chunk per window start, with the
`chunk_index` counter incremented each iteration. -/
def chunkLoop (decode : List Nat → List Char) (docMeta : Metadata)
    (tokens : List Nat) : List Nat → Nat → List ProcessedChunk
  | [], _ => []
  | i :: rest, idx =>
    window_chunk decode docMeta tokens idx i :: chunkLoop decode docMeta tokens rest (idx + 1)

/-- Embeds `ContentProcessor._chunk_content`.  `encode`/`decode` model the
fixed tiktoken `cl100k_base` encoding (an external library), passed in as
functions. -/
def chunk_content (encode : List Char → List Nat) (decode : List Nat → List Char)
    (content : List Char) (docMeta : Metadata) : List ProcessedChunk :=
  if pyStrip content = [] then []
  else
    let tokens := encode content
    if tokens.length ≤ max_chunk_tokens then
      [{ content := content,
         metadata := mset (mset docMeta "chunk_index" (.i 0)) "total_chunks" (.i 1),
         token_count := tokens.length }]
    else
      let chunks := chunkLoop decode docMeta tokens
        (pyRange 0 tokens.length (max_chunk_tokens - chunk_overlap)) 0
      chunks.map (fun ch =>
        { ch with metadata := mset ch.metadata "total_chunks" (.i chunks.length) })

/-- External collaborators of `ContentProcessor.process_url`, passed in as
explicit parameters: the tiktoken encoding, the BeautifulSoup-based
extraction helpers (which, being external calls, may raise — modelled as
`Except`), `urlparse(url).netloc`, and the two clock readings. -/
structure PipelineEnv : Type where
  encode : List Char → List Nat
  decode : List Nat → List Char
  extract_main_content : List Char → Except (List Char) (List Char)
  extract_title : List Char → Except (List Char) (List Char)
  netloc : List Char
  now_iso : List Char
  now_ts : Int
  url_hash : Int

/-- Embeds `ContentProcessor._scrape_url`: `resp` is the transport outcome
(network failure, or a status code with a body); a non-200 status raises
`Exception(f"HTTP status: Failed to fetch url")`. -/
def scrape_url (url : List Char) (resp : Except (List Char) (Nat × List Char)) :
    Except (List Char) (List Char) :=
  match resp with
  | .error e => .error e
  | .ok (status, body) =>
    if status ≠ 200 then
      .error (("HTTP " ++ toString status ++ ": Failed to fetch ").data ++ url)
    else .ok body

/-- The `doc_metadata` dictionary literal built in `process_url`. -/
def build_doc_metadata (env : PipelineEnv) (url nm tag clean : List Char) : Metadata :=
  mset (mset (mset (mset (mset (mset (mset (mset mempty_dict
    "url" (.s url))
    "name" (.s nm))
    "tag" (.s tag))
    "domain" (.s env.netloc))
    "scraped_at" (.s env.now_iso))
    "content_type" (.s "webpage".data))
    "word_count" (.i (pySplit clean).length))
    "char_count" (.i clean.length)

/-- The `try:` block of `ContentProcessor.process_url`: scrape, extract,
resolve the display name (the `name or self._extract_title(...)` falsy
check), build metadata, chunk, and sum the token counts. -/
def run_process (env : PipelineEnv) (url : List Char) (name : Option (List Char))
    (tag : List Char) (resp : Except (List Char) (Nat × List Char)) :
    Except (List Char) ProcessedDocument := do
  let raw ← scrape_url url resp
  let clean ← env.extract_main_content raw
  let nm ← match name with
    | some n => if n = [] then env.extract_title raw else Except.ok n
    | none => env.extract_title raw
  let docMeta := build_doc_metadata env url nm tag clean
  let chunks := chunk_content env.encode env.decode clean docMeta
  Except.ok
    { id := ("doc_" ++ toString env.now_ts ++ "_" ++ toString env.url_hash).data,
      chunks := chunks,
      metadata := docMeta,
      total_tokens := (chunks.map ProcessedChunk.token_count).sum }

/-- The synthetic error chunk built in the `except` branch of
`process_url`. -/
def error_chunk (encode : List Char → List Nat) (url e : List Char) : ProcessedChunk :=
  let msg := "Error processing URL ".data ++ url ++ ": ".data ++ e
  { content := msg,
    metadata := mset (mset mempty_dict "error" (.b true)) "url" (.s url),
    token_count := (encode msg).length }

/-- Embeds `ContentProcessor.process_url`: any exception raised inside the
`try:` block is caught and converted into the single-chunk error
document. -/
def process_url (env : PipelineEnv) (url : List Char) (name : Option (List Char))
    (tag : List Char) (resp : Except (List Char) (Nat × List Char)) :
    ProcessedDocument :=
  match run_process env url name tag resp with
  | .ok d => d
  | .error e =>
    let ec := error_chunk env.encode url e
    { id := ("error_" ++ toString env.now_ts).data,
      chunks := [ec],
      metadata := mset (mset mempty_dict "url" (.s url)) "error" (.s e),
      total_tokens := ec.token_count }

/-- The per-chunk score of `SimpleRAGRetriever.search`: word overlap of the
lower-cased query and chunk word sets, plus twice the number of
(non-overlapping) occurrences of the lower-cased query as a substring of
the lower-cased chunk content. -/
def scoreChunk (query : List Char) (ch : ProcessedChunk) : Nat :=
  let query_lower := query.map Char.toLower
  let query_words := pySplit query_lower
  let content_lower := ch.content.map Char.toLower
  let content_words := pySplit content_lower
  let word_overlap := (query_words.dedup.filter (fun w => w ∈ content_words)).length
  let phrase_matches := pyCount content_lower query_lower
  word_overlap + 2 * phrase_matches

/-- The scored positive-score chunk list accumulated by `search` (score
paired with the chunk, in corpus insertion order). -/
def scoredChunks (chunks : List ProcessedChunk) (query : List Char) :
    List (Nat × ProcessedChunk) :=
  chunks.filterMap (fun ch =>
    let s := scoreChunk query ch
    if s > 0 then some (s, ch) else none)

/-- Embeds `SimpleRAGRetriever.search` on a corpus (the retriever's flat
`self.chunks` list): Python's `sort(key=lambda x: x[0], reverse=True)` is a
stable sort by descending score; a stable sort's output is uniquely
determined, so it is modelled by the (stable) `insertionSort` under the
total relation `a.1 ≥ b.1` (which keeps earlier elements first on
ties). -/
def search (chunks : List ProcessedChunk) (query : List Char) (top_k : Nat) :
    List ProcessedChunk :=
  let sorted := (scoredChunks chunks query).insertionSort (fun a b => b.1 ≤ a.1)
  (sorted.take top_k).map (fun p => p.2)

/-- C7: empty or whitespace-only text chunks to the empty sequence; text
whose token count is at most `max_chunk_tokens` (500, including exactly
500) yields exactly one chunk carrying the input text verbatim, its total
token count, `chunk_index = 0` and `total_chunks = 1`. -/
theorem C7_small_text_single_chunk (encode : List Char → List Nat)
    (decode : List Nat → List Char) (content : List Char) (docMeta : Metadata) :
    (pyStrip content = [] → chunk_content encode decode content docMeta = []) ∧
    (pyStrip content ≠ [] → (encode content).length ≤ max_chunk_tokens →
      (chunk_content encode decode content docMeta).length = 1 ∧
      ∀ ch ∈ chunk_content encode decode content docMeta,
        ch.content = content ∧
        ch.token_count = (encode content).length ∧
        ch.metadata "chunk_index" = some (.i 0) ∧
        ch.metadata "total_chunks" = some (.i 1)) := by
  constructor
  · intro h
    simp [chunk_content, h]
  · intro h1 h2
    simp only [chunk_content, if_neg h1, if_pos h2]
    refine ⟨rfl, ?_⟩
    intro ch hch
    rw [List.mem_singleton] at hch
    subst hch
    refine ⟨rfl, rfl, ?_, ?_⟩
    · show mset (mset docMeta "chunk_index" (.i 0)) "total_chunks" (.i 1) "chunk_index" = _
      rw [mset, if_neg (by decide), mset, if_pos rfl]
    · show mset (mset docMeta "chunk_index" (.i 0)) "total_chunks" (.i 1) "total_chunks" = _
      rw [mset, if_pos rfl]

/-- Witness for C7 at concrete inputs: a whitespace-only text and a
two-token text under a one-token-per-character encoding. -/
theorem C7_small_text_single_chunk_witness :
    chunk_content (fun l => l.map Char.toNat) (fun _ => []) " \n ".data mempty_dict = [] ∧
    ((chunk_content (fun l => l.map Char.toNat) (fun _ => []) "hi".data mempty_dict).length = 1 ∧
      ∀ ch ∈ chunk_content (fun l => l.map Char.toNat) (fun _ => []) "hi".data mempty_dict,
        ch.content = "hi".data ∧
        ch.token_count = (("hi".data).map Char.toNat).length ∧
        ch.metadata "chunk_index" = some (.i 0) ∧
        ch.metadata "total_chunks" = some (.i 1)) :=
  ⟨(C7_small_text_single_chunk (fun l => l.map Char.toNat) (fun _ => []) " \n ".data
      mempty_dict).1 (by decide),
    (C7_small_text_single_chunk (fun l => l.map Char.toNat) (fun _ => []) "hi".data
      mempty_dict).2 (by decide) (by decide)⟩

/-- C3 (evaluation at the failing input): on the 66-character text
`'x' * 30 ++ "." ++ 'y' * 35`, whose only sentence ending sits 35
characters from the end (so by the claim — and by the function's own
docstring and comment — the text must be truncated immediately after that
period, giving `'x' * 30 ++ "."`), the code instead returns the first 63
characters, cutting three characters from the end in the middle of a run:
the slice offset `len(text) - 100 + best_split + 1` assumes the search
window is exactly 100 characters long. -/
theorem C3_boundary_adjustment_eval :
    adjust_chunk_boundary (List.replicate 30 'x' ++ ['.'] ++ List.replicate 35 'y') =
      List.replicate 30 'x' ++ ['.'] ++ List.replicate 32 'y' ∧
    adjust_chunk_boundary (List.replicate 30 'x' ++ ['.'] ++ List.replicate 35 'y') ≠
      List.replicate 30 'x' ++ ['.'] ∧
    50 ≤ (List.replicate 30 'x' ++ ['.'] ++ List.replicate 35 'y').length := by
  decide

theorem chunkLoop_length (decode : List Nat → List Char) (docMeta : Metadata)
    (tokens : List Nat) :
    ∀ (starts : List Nat) (idx : Nat),
      (chunkLoop decode docMeta tokens starts idx).length = starts.length := by
  intro starts
  induction starts with
  | nil => intro idx; rfl
  | cons i rest ih => intro idx; simp [chunkLoop, ih]

theorem chunkLoop_get (decode : List Nat → List Char) (docMeta : Metadata)
    (tokens : List Nat) :
    ∀ (starts : List Nat) (idx j : Nat) (hj : j < starts.length)
      (hj' : j < (chunkLoop decode docMeta tokens starts idx).length),
      (chunkLoop decode docMeta tokens starts idx).get ⟨j, hj'⟩ =
        window_chunk decode docMeta tokens (idx + j) (starts.get ⟨j, hj⟩) := by
  intro starts
  induction starts with
  | nil => intro idx j hj; cases hj
  | cons i rest ih =>
    intro idx j hj hj'
    cases j with
    | zero => rfl
    | succ j' =>
      have hrec := ih (idx + 1) j' (by simpa using hj)
        (by rw [chunkLoop_length]; simpa using hj)
      show (chunkLoop decode docMeta tokens rest (idx + 1)).get ⟨j', _⟩ = _
      rw [hrec]
      have harith : idx + 1 + j' = idx + (j' + 1) := by omega
      rw [harith]
      rfl

theorem chunkLoop_mem (decode : List Nat → List Char) (docMeta : Metadata)
    (tokens : List Nat) :
    ∀ (starts : List Nat) (idx : Nat) (ch : ProcessedChunk),
      ch ∈ chunkLoop decode docMeta tokens starts idx →
      ∃ idx' i, ch = window_chunk decode docMeta tokens idx' i := by
  intro starts
  induction starts with
  | nil => intro idx ch h; cases h
  | cons i rest ih =>
    intro idx ch h
    rcases List.mem_cons.mp h with h1 | h2
    · exact ⟨idx, i, h1⟩
    · exact ih (idx + 1) ch h2

/-- C4: for texts tokenizing to more than `max_chunk_tokens` (500) tokens,
chunking produces one chunk per window start of stride
`max_chunk_tokens - chunk_overlap` (450); a text of exactly
`3 * max_chunk_tokens` tokens yields
`ceil((3*500 - 50) / 450)` chunks; every chunk's stored `token_count` is
the pre-snap window length (the length of the 500-token slice starting at
its window start) and is at most 500; and after the second pass every
chunk's `total_chunks` metadata equals the final chunk count. -/
theorem C4_sliding_window_chunking (encode : List Char → List Nat)
    (decode : List Nat → List Char) (content : List Char) (docMeta : Metadata)
    (h1 : pyStrip content ≠ []) (h2 : max_chunk_tokens < (encode content).length) :
    (chunk_content encode decode content docMeta).length =
      (pyRange 0 (encode content).length (max_chunk_tokens - chunk_overlap)).length ∧
    ((encode content).length = 3 * max_chunk_tokens →
      (chunk_content encode decode content docMeta).length =
        (3 * max_chunk_tokens - chunk_overlap + (max_chunk_tokens - chunk_overlap - 1)) /
          (max_chunk_tokens - chunk_overlap)) ∧
    (∀ (j : Nat) (hj : j < (chunk_content encode decode content docMeta).length),
      ((chunk_content encode decode content docMeta).get ⟨j, hj⟩).token_count =
        (((encode content).drop ((max_chunk_tokens - chunk_overlap) * j)).take
          max_chunk_tokens).length) ∧
    (∀ ch ∈ chunk_content encode decode content docMeta,
      ch.token_count ≤ max_chunk_tokens ∧
      ch.metadata "total_chunks" =
        some (.i ((chunk_content encode decode content docMeta).length))) := by
  have hcc : chunk_content encode decode content docMeta =
      (chunkLoop decode docMeta (encode content)
        (pyRange 0 (encode content).length (max_chunk_tokens - chunk_overlap)) 0).map
        (fun ch =>
          { ch with
            metadata := mset ch.metadata "total_chunks"
              (PyVal.i ((chunkLoop decode docMeta (encode content)
                (pyRange 0 (encode content).length (max_chunk_tokens - chunk_overlap))
                  0).length)) }) := by
    simp only [chunk_content, if_neg h1, if_neg (Nat.not_le.mpr h2)]
  have hlen : (chunk_content encode decode content docMeta).length =
      (pyRange 0 (encode content).length (max_chunk_tokens - chunk_overlap)).length := by
    rw [hcc, List.length_map, chunkLoop_length]
  refine ⟨hlen, ?_, ?_, ?_⟩
  · intro h3
    rw [hlen, h3]
    rfl
  · intro j hj
    have hj1 : j < (pyRange 0 (encode content).length (max_chunk_tokens - chunk_overlap)).length := by
      rw [← hlen]; exact hj
    have hj2 : j < (chunkLoop decode docMeta (encode content)
        (pyRange 0 (encode content).length (max_chunk_tokens - chunk_overlap)) 0).length := by
      rw [chunkLoop_length]; exact hj1
    rw [List.get_of_eq hcc ⟨j, hj⟩, List.get_map]
    show ((chunkLoop decode docMeta (encode content)
      (pyRange 0 (encode content).length (max_chunk_tokens - chunk_overlap)) 0).get
        ⟨j, hj2⟩).token_count = _
    rw [chunkLoop_get decode docMeta (encode content) _ 0 j hj1 hj2]
    have hget : (pyRange 0 (encode content).length (max_chunk_tokens - chunk_overlap)).get
        ⟨j, hj1⟩ = (max_chunk_tokens - chunk_overlap) * j := by
      simp [pyRange, List.get_map, List.get_range]
    rw [hget]
    rfl
  · intro ch hch
    rw [hcc] at hch
    rcases List.mem_map.mp hch with ⟨a, ha, rfl⟩
    constructor
    · rcases chunkLoop_mem decode docMeta (encode content) _ 0 a ha with ⟨idx', i, rfl⟩
      show (((encode content).drop i).take max_chunk_tokens).length ≤ max_chunk_tokens
      simp [List.length_take]
    · show mset a.metadata "total_chunks" _ "total_chunks" = _
      rw [mset, if_pos rfl, hcc, List.length_map]

/-- Witness for C4 at a concrete input: an encoding mapping the text to
exactly `3 * max_chunk_tokens = 1500` tokens, giving
`ceil(1450 / 450) = 4` chunks. -/
theorem C4_sliding_window_chunking_witness :
    (chunk_content (fun _ => List.range 1500) (fun _ => []) "a".data mempty_dict).length =
      (3 * max_chunk_tokens - chunk_overlap + (max_chunk_tokens - chunk_overlap - 1)) /
        (max_chunk_tokens - chunk_overlap) :=
  (C4_sliding_window_chunking (fun _ => List.range 1500) (fun _ => []) "a".data mempty_dict
    (by decide) (by simp [max_chunk_tokens])).2.1 (by simp [max_chunk_tokens])

/-- C6: `process_url` never raises (it is a total function of the modelled
step outcomes); whenever any step of the pipeline raises — in particular on
a network failure and on any non-200 HTTP status — it returns a document
with exactly one chunk whose content is the human-readable error message
and whose chunk metadata flags `error = true`. -/
theorem C6_process_url_error_document (env : PipelineEnv) (url : List Char)
    (name : Option (List Char)) (tag : List Char)
    (resp : Except (List Char) (Nat × List Char)) :
    (∀ e, run_process env url name tag resp = .error e →
      (process_url env url name tag resp).chunks.length = 1 ∧
      ∀ ch ∈ (process_url env url name tag resp).chunks,
        ch.metadata "error" = some (.b true) ∧
        ch.content = "Error processing URL ".data ++ url ++ ": ".data ++ e) ∧
    (∀ e, resp = .error e → run_process env url name tag resp = .error e) ∧
    (∀ status body, resp = .ok (status, body) → status ≠ 200 →
      run_process env url name tag resp =
        .error (("HTTP " ++ toString status ++ ": Failed to fetch ").data ++ url)) := by
  refine ⟨?_, ?_, ?_⟩
  · intro e he
    simp only [process_url, he]
    refine ⟨rfl, ?_⟩
    intro ch hch
    rw [List.mem_singleton] at hch
    subst hch
    constructor
    · show mset (mset mempty_dict "error" (.b true)) "url" (.s url) "error" = _
      rw [mset, if_neg (by decide), mset, if_pos rfl]
    · rfl
  · intro e he
    subst he
    rfl
  · intro status body hr hs
    subst hr
    simp only [run_process, scrape_url, if_pos hs]
    rfl

/-- Witness for C6 at concrete inputs: an unreachable host (network error)
and a 404 status. -/
theorem C6_process_url_error_document_witness :
    ((process_url
        ⟨fun _ => [], fun _ => [], fun r => .ok r, fun _ => .ok [], [], [], 0, 0⟩
        "http://unreachable.example/".data none "Untagged".data
        (.error "Cannot connect to host".data)).chunks.length = 1 ∧
      ∀ ch ∈ (process_url
          ⟨fun _ => [], fun _ => [], fun r => .ok r, fun _ => .ok [], [], [], 0, 0⟩
          "http://unreachable.example/".data none "Untagged".data
          (.error "Cannot connect to host".data)).chunks,
        ch.metadata "error" = some (.b true) ∧
        ch.content = "Error processing URL ".data ++ "http://unreachable.example/".data ++
          ": ".data ++ "Cannot connect to host".data) ∧
    run_process ⟨fun _ => [], fun _ => [], fun r => .ok r, fun _ => .ok [], [], [], 0, 0⟩
        "http://x.example/".data none "Untagged".data (.ok (404, "gone".data)) =
      .error (("HTTP " ++ toString 404 ++ ": Failed to fetch ").data ++
        "http://x.example/".data) := by
  constructor
  · exact (C6_process_url_error_document
      ⟨fun _ => [], fun _ => [], fun r => .ok r, fun _ => .ok [], [], [], 0, 0⟩
      "http://unreachable.example/".data none "Untagged".data
      (.error "Cannot connect to host".data)).1 "Cannot connect to host".data
      ((C6_process_url_error_document
        ⟨fun _ => [], fun _ => [], fun r => .ok r, fun _ => .ok [], [], [], 0, 0⟩
        "http://unreachable.example/".data none "Untagged".data
        (.error "Cannot connect to host".data)).2.1 "Cannot connect to host".data rfl)
  · exact (C6_process_url_error_document
      ⟨fun _ => [], fun _ => [], fun r => .ok r, fun _ => .ok [], [], [], 0, 0⟩
      "http://x.example/".data none "Untagged".data
      (.ok (404, "gone".data))).2.2 404 "gone".data rfl (by decide)

theorem mem_scoredChunks {chunks : List ProcessedChunk} {query : List Char}
    {p : Nat × ProcessedChunk} (hp : p ∈ scoredChunks chunks query) :
    0 < p.1 ∧ p.1 = scoreChunk query p.2 ∧ p.2 ∈ chunks := by
  rcases List.mem_filterMap.mp hp with ⟨ch, hch, hf⟩
  by_cases hs : scoreChunk query ch > 0
  · rw [if_pos hs] at hf
    cases hf
    exact ⟨hs, rfl, hch⟩
  · rw [if_neg hs] at hf
    cases hf

/-- C5: `search` returns only chunks of positive score, at most `top_k` of
them, in non-increasing score order; the stable sort keeps chunks of equal
score in their original corpus insertion order (the sorted list filtered to
any one score value equals the unsorted scored list so filtered); and on a
concrete corpus holding one chunk with two occurrences of the query phrase
and one chunk with a single occurrence, the two-occurrence chunk is ranked
first. -/
theorem C5_search_scoring (chunks : List ProcessedChunk) (query : List Char)
    (top_k : Nat) :
    (∀ ch ∈ search chunks query top_k, 0 < scoreChunk query ch) ∧
    (search chunks query top_k).length ≤ top_k ∧
    (search chunks query top_k).Pairwise
      (fun a b => scoreChunk query b ≤ scoreChunk query a) ∧
    (∀ s : Nat,
      ((scoredChunks chunks query).insertionSort (fun a b => b.1 ≤ a.1)).filter
          (fun p => p.1 == s) =
        (scoredChunks chunks query).filter (fun p => p.1 == s)) ∧
    (search
        [{ content := "the exact phrase is here".data, metadata := mempty_dict,
            token_count := 5 },
          { content := "exact phrase and exact phrase".data, metadata := mempty_dict,
            token_count := 6 }]
        "exact phrase".data 2).map ProcessedChunk.content =
      ["exact phrase and exact phrase".data, "the exact phrase is here".data] := by
  haveI htot : IsTotal (Nat × ProcessedChunk) (fun a b => b.1 ≤ a.1) :=
    ⟨fun a b => Nat.le_total b.1 a.1⟩
  haveI htrans : IsTrans (Nat × ProcessedChunk) (fun a b => b.1 ≤ a.1) :=
    ⟨fun _ _ _ hab hbc => Nat.le_trans hbc hab⟩
  refine ⟨?_, ?_, ?_, ?_, by decide⟩
  · intro ch hch
    simp only [search] at hch
    rcases List.mem_map.mp hch with ⟨p, hp, rfl⟩
    have hp3 : p ∈ scoredChunks chunks query :=
      (List.mem_insertionSort _).mp (List.mem_of_mem_take hp)
    have h := mem_scoredChunks hp3
    rw [← h.2.1]
    exact h.1
  · simp only [search, List.length_map, List.length_take]
    exact Nat.min_le_left _ _
  · have hsorted := List.sorted_insertionSort (fun a b : Nat × ProcessedChunk => b.1 ≤ a.1)
      (scoredChunks chunks query)
    have htake := hsorted.sublist (List.take_sublist top_k _)
    simp only [search]
    rw [List.pairwise_map]
    refine List.Pairwise.imp_of_mem ?_ htake
    intro a b ha hb hle
    have ha2 := mem_scoredChunks ((List.mem_insertionSort _).mp (List.mem_of_mem_take ha))
    have hb2 := mem_scoredChunks ((List.mem_insertionSort _).mp (List.mem_of_mem_take hb))
    rw [← ha2.2.1, ← hb2.2.1]
    exact hle
  · intro s
    have hpair : ((scoredChunks chunks query).filter (fun p => p.1 == s)).Pairwise
        (fun a b => b.1 ≤ a.1) := by
      apply List.pairwise_of_forall_mem_list
      intro a ha b hb
      have ha1 : a.1 = s := by simpa using (List.mem_filter.mp ha).2
      have hb1 : b.1 = s := by simpa using (List.mem_filter.mp hb).2
      simp [ha1, hb1]
    have hsub := List.sublist_insertionSort hpair
      (List.filter_sublist (scoredChunks chunks query))
    have hsub2 := hsub.filter (fun p => p.1 == s)
    rw [List.filter_filter] at hsub2
    simp only [Bool.and_self] at hsub2
    have hperm := (List.perm_insertionSort
      (fun a b : Nat × ProcessedChunk => b.1 ≤ a.1)
      (scoredChunks chunks query)).filter (fun p => p.1 == s)
    exact (hsub2.eq_of_length hperm.length_eq.symm).symm

/-- Witness for C5 at a concrete input: the first chunk returned on the
two-chunk corpus has positive score. -/
theorem C5_search_scoring_witness :
    0 < scoreChunk "exact phrase".data
      { content := "exact phrase and exact phrase".data, metadata := mempty_dict,
        token_count := 6 } :=
  (C5_search_scoring
      [{ content := "the exact phrase is here".data, metadata := mempty_dict,
          token_count := 5 },
        { content := "exact phrase and exact phrase".data, metadata := mempty_dict,
          token_count := 6 }]
      "exact phrase".data 2).1
    { content := "exact phrase and exact phrase".data, metadata := mempty_dict,
      token_count := 6 }
    (by
      have hs : search
          [{ content := "the exact phrase is here".data, metadata := mempty_dict,
              token_count := 5 },
            { content := "exact phrase and exact phrase".data, metadata := mempty_dict,
              token_count := 6 }]
          "exact phrase".data 2 =
          [{ content := "exact phrase and exact phrase".data, metadata := mempty_dict,
              token_count := 6 },
            { content := "the exact phrase is here".data, metadata := mempty_dict,
              token_count := 5 }] := rfl
      rw [hs]
      exact List.mem_cons_self _ _)

end Content
